import Mathlib

/-!
Verification of the MARWIL torch policy loss engine
(`rllib/algorithms/marwil/marwil_torch_policy.py`).

Tensors are modelled as lists of real numbers, index-aligned per batch
transition; scalar configuration fields and the moving-average state are
real numbers. `torch.pow(x, 0.5)` on the (nonnegative) moving-average
state is modelled as `Real.sqrt`. Gradient tracking (`.detach()`,
`requires_grad=False`) is modelled separately with forward-mode dual
numbers (`Dual` below). Fallible attribute access (reading the
moving-average field when it was never allocated) is modelled with
`Option`.
-/

/-- The config keys read by `MARWILTorchPolicy` (`beta`, `vf_coeff`,
`bc_logstd_coeff`, `moving_average_sqd_adv_norm_start`,
`moving_average_sqd_adv_norm_update_rate`). -/
structure MARWILConfig where
  beta : ℝ
  vf_coeff : ℝ
  bc_logstd_coeff : ℝ
  moving_average_sqd_adv_norm_start : ℝ
  moving_average_sqd_adv_norm_update_rate : ℝ

/-- The per-call inputs of `MARWILTorchPolicy.loss` supplied by the external
collaborators: `logprobs = action_dist.logp(actions)`, `advantages =
train_batch[Postprocessing.ADVANTAGES]`, `state_values =
model.value_function()`, and `log_std = action_dist.log_std` (one row of
per-action-dimension values per transition). -/
structure LossInputs where
  logprobs : List ℝ
  advantages : List ℝ
  state_values : List ℝ
  log_std : List (List ℝ)

/-- The policy object: its config plus the attributes assigned on `self`.
`moving_average_sqd_adv_norm` is `none` when the constructor did not
allocate it (`beta == 0.0`); the stats attributes are `none` before the
first `loss` call assigns them. -/
structure MARWILTorchPolicy where
  config : MARWILConfig
  moving_average_sqd_adv_norm : Option ℝ
  explained_variance : Option ℝ
  p_loss : Option ℝ
  v_loss : Option ℝ
  total_loss : Option ℝ

/-- Mean of a 1-D tensor (`torch.mean`). -/
noncomputable def mean (l : List ℝ) : ℝ := l.sum / l.length

/-- Population variance of a 1-D tensor. -/
noncomputable def variance (l : List ℝ) : ℝ :=
  mean (l.map fun x => (x - mean l) ^ 2)

/-- Modelled from the spec: `explained_variance` lives in
`ray.rllib.utils.torch_utils`, which is not part of this repository's
sources; the spec describes it as the "standard formula:
`1 - Var(target - prediction)/Var(target)`" and calls it a pure
diagnostic. -/
noncomputable def explainedVariance (y pred : List ℝ) : ℝ :=
  1 - variance (List.zipWith (fun a b => a - b) y pred) / variance y

/-- One entry of the `exp_advs` tensor:
`torch.exp(beta * (adv / (1e-8 + torch.pow(moving_avg, 0.5))))`. -/
noncomputable def exp_adv (beta a mavg : ℝ) : ℝ :=
  Real.exp (beta * (a / (1e-8 + Real.sqrt mavg)))

/-- Constructor (`MARWILTorchPolicy.__init__`): the moving-average state is allocated
(set to `moving_average_sqd_adv_norm_start`) only when `beta != 0.0`;
the stats attributes are not assigned by the constructor. -/
noncomputable def MARWILTorchPolicy.init (config : MARWILConfig) : MARWILTorchPolicy :=
  { config := config
    moving_average_sqd_adv_norm :=
      if config.beta ≠ 0 then some config.moving_average_sqd_adv_norm_start else none
    explained_variance := none
    p_loss := none
    v_loss := none
    total_loss := none }

/-- The values `MARWILTorchPolicy.loss` produces besides the mutated
`self`: the local `exp_advs` tensor and the three loss scalars (the
method returns `total_loss`; the others are also stored on `self`). -/
structure LossOut where
  exp_advs : List ℝ
  p_loss : ℝ
  v_loss : ℝ
  total_loss : ℝ

/-- The loss method (`MARWILTorchPolicy.loss`). Returns the mutated policy object together
with the computed values; `none` models the `AttributeError` raised when
`beta != 0.0` but the moving-average state was never allocated. -/
noncomputable def MARWILTorchPolicy.loss (self : MARWILTorchPolicy) (I : LossInputs) :
    Option (MARWILTorchPolicy × LossOut) :=
  let logprobs := I.logprobs
  let branch : Option (MARWILTorchPolicy × List ℝ × ℝ) :=
    if self.config.beta ≠ 0 then
      match self.moving_average_sqd_adv_norm with
      | none => none
      | some old_avg =>
        let cumulative_rewards := I.advantages
        let state_values := I.state_values
        let adv := List.zipWith (fun c v => c - v) cumulative_rewards state_values
        let adv_squared_mean := mean (adv.map fun x => x ^ 2)
        let explained_var := explainedVariance cumulative_rewards state_values
        let rate := self.config.moving_average_sqd_adv_norm_update_rate
        let new_avg := old_avg + rate * (adv_squared_mean - old_avg)
        let exp_advs := adv.map fun a => exp_adv self.config.beta a new_avg
        let v_loss := 0.5 * adv_squared_mean
        some ({ self with
                  moving_average_sqd_adv_norm := some new_avg
                  explained_variance := some explained_var },
              exp_advs, v_loss)
    else
      some (self, List.replicate logprobs.length 1, 0)
  match branch with
  | none => none
  | some (self1, exp_advs, v_loss) =>
    let logstd_coeff := self.config.bc_logstd_coeff
    let logstds :=
      if logstd_coeff > 0 then I.log_std.map mean
      else List.replicate logprobs.length 0
    let p_loss :=
      -mean (List.zipWith (fun e t => e * t) exp_advs
        (List.zipWith (fun l s => l + logstd_coeff * s) logprobs logstds))
    let total_loss := p_loss + self.config.vf_coeff * v_loss
    some ({ self1 with
              p_loss := some p_loss
              v_loss := some v_loss
              total_loss := some total_loss },
          { exp_advs := exp_advs, p_loss := p_loss, v_loss := v_loss,
            total_loss := total_loss })

/-- Stats query (`MARWILTorchPolicy.stats_fn`): a `policy_loss`/`total_loss` mapping,
extended with `moving_average_sqd_adv_norm`, `vf_explained_var` and
`vf_loss` when `beta != 0.0` (insertion order preserved;
`convert_to_numpy` only converts the values). `none` models the
`AttributeError` raised when an attribute read here was never assigned. -/
noncomputable def MARWILTorchPolicy.stats_fn (self : MARWILTorchPolicy) :
    Option (List (String × ℝ)) := do
  let pl ← self.p_loss
  let tl ← self.total_loss
  let base := [("policy_loss", pl), ("total_loss", tl)]
  if self.config.beta ≠ 0 then
    let m ← self.moving_average_sqd_adv_norm
    let ev ← self.explained_variance
    let vl ← self.v_loss
    some (base ++ [("moving_average_sqd_adv_norm", m), ("vf_explained_var", ev),
      ("vf_loss", vl)])
  else
    some base

/-- Iterated loss invocations on one policy instance. -/
noncomputable def runLosses (p : MARWILTorchPolicy) : List LossInputs → Option MARWILTorchPolicy
  | [] => some p
  | I :: rest =>
    match p.loss I with
    | none => none
    | some (p1, _) => runLosses p1 rest

/-- Forward-mode dual number: a value together with its derivative with
respect to the model parameters; used to model which tensors are part of
the differentiable graph. -/
structure Dual where
  val : ℝ
  der : ℝ

/-- A tensor outside the gradient graph (constants, `requires_grad=False`
buffers such as the moving-average state). -/
def Dual.const (x : ℝ) : Dual := ⟨x, 0⟩

noncomputable def Dual.add (a b : Dual) : Dual := ⟨a.val + b.val, a.der + b.der⟩

noncomputable def Dual.mul (a b : Dual) : Dual :=
  ⟨a.val * b.val, a.der * b.val + a.val * b.der⟩

noncomputable def Dual.div (a b : Dual) : Dual :=
  ⟨a.val / b.val, (a.der * b.val - a.val * b.der) / b.val ^ 2⟩

/-- Exponential (`torch.exp`) on a dual number. -/
noncomputable def Dual.exp (a : Dual) : Dual := ⟨Real.exp a.val, Real.exp a.val * a.der⟩

/-- Detach (`.detach()`): keep the value, cut the gradient. -/
def Dual.detach (a : Dual) : Dual := ⟨a.val, 0⟩

/-- One entry of the `exp_advs` tensor in the gradient model:
`torch.exp(beta * (adv / (1e-8 + torch.pow(moving_avg, 0.5)))).detach()`,
where `adv` carries a gradient, while `beta` and the moving-average state
(`requires_grad=False`) do not. -/
noncomputable def exp_adv_dual (beta : ℝ) (a : Dual) (mavg : ℝ) : Dual :=
  (((Dual.const beta).mul
    (a.div ((Dual.const 1e-8).add (Dual.const (Real.sqrt mavg))))).exp).detach

/-- C1: with `beta != 0`, the moving average after a `loss` call equals
`old + rate * (mean((advantages - state_values)^2) - old)`, and this
updated value (not `old`) is the denominator state used for `exp_advs`
in the same call. -/
theorem C1_moving_average_update_then_use (p : MARWILTorchPolicy) (I : LossInputs)
    (old : ℝ) (hb : p.config.beta ≠ 0)
    (hm : p.moving_average_sqd_adv_norm = some old) :
    ∃ p1 out, p.loss I = some (p1, out) ∧
      p1.moving_average_sqd_adv_norm =
        some (old + p.config.moving_average_sqd_adv_norm_update_rate *
          (mean ((List.zipWith (fun c v => c - v) I.advantages I.state_values).map
            fun x => x ^ 2) - old)) ∧
      out.exp_advs =
        (List.zipWith (fun c v => c - v) I.advantages I.state_values).map fun a =>
          exp_adv p.config.beta a
            (old + p.config.moving_average_sqd_adv_norm_update_rate *
              (mean ((List.zipWith (fun c v => c - v) I.advantages I.state_values).map
                fun x => x ^ 2) - old)) := by
  simp only [MARWILTorchPolicy.loss, hm, if_pos hb]
  exact ⟨_, _, rfl, rfl, rfl⟩

theorem C1_witness :
    (MARWILTorchPolicy.init ⟨1, 1, 0, 2, 1/2⟩).config.beta ≠ 0 ∧
    (MARWILTorchPolicy.init ⟨1, 1, 0, 2, 1/2⟩).moving_average_sqd_adv_norm = some 2 ∧
    ∃ p1 out,
      (MARWILTorchPolicy.init ⟨1, 1, 0, 2, 1/2⟩).loss ⟨[0], [1], [0], [[0]]⟩ =
        some (p1, out) ∧
      p1.moving_average_sqd_adv_norm =
        some (2 + (MARWILTorchPolicy.init ⟨1, 1, 0, 2, 1/2⟩).config.moving_average_sqd_adv_norm_update_rate *
          (mean ((List.zipWith (fun c v => c - v) [(1 : ℝ)] [(0 : ℝ)]).map
            fun x => x ^ 2) - 2)) ∧
      out.exp_advs =
        (List.zipWith (fun c v => c - v) [(1 : ℝ)] [(0 : ℝ)]).map fun a =>
          exp_adv (MARWILTorchPolicy.init ⟨1, 1, 0, 2, 1/2⟩).config.beta a
            (2 + (MARWILTorchPolicy.init ⟨1, 1, 0, 2, 1/2⟩).config.moving_average_sqd_adv_norm_update_rate *
              (mean ((List.zipWith (fun c v => c - v) [(1 : ℝ)] [(0 : ℝ)]).map
                fun x => x ^ 2) - 2)) :=
  ⟨by norm_num [MARWILTorchPolicy.init], by norm_num [MARWILTorchPolicy.init],
   C1_moving_average_update_then_use _ _ 2 (by norm_num [MARWILTorchPolicy.init])
     (by norm_num [MARWILTorchPolicy.init])⟩

/-- C3: with `beta == 0`, the constructor allocates no moving-average
state, and every `loss` call leaves the moving-average field untouched,
sets `v_loss` to exactly `0` and makes `total_loss` equal `p_loss`
exactly, whatever `vf_coeff` is. -/
theorem C3_pure_bc_mode (cfg : MARWILConfig) (p : MARWILTorchPolicy) (I : LossInputs)
    (hc : cfg.beta = 0) (hp : p.config.beta = 0) :
    (MARWILTorchPolicy.init cfg).moving_average_sqd_adv_norm = none ∧
    ∃ p1 out, p.loss I = some (p1, out) ∧
      p1.moving_average_sqd_adv_norm = p.moving_average_sqd_adv_norm ∧
      out.v_loss = 0 ∧ out.total_loss = out.p_loss := by
  constructor
  · simp [MARWILTorchPolicy.init, hc]
  · simp only [MARWILTorchPolicy.loss, hp, ne_eq, not_true_eq_false, if_false, reduceIte]
    exact ⟨_, _, rfl, rfl, rfl, by simp⟩

theorem C3_witness :
    (⟨0, 5, 0, 3, 1/2⟩ : MARWILConfig).beta = 0 ∧
    (MARWILTorchPolicy.init ⟨0, 5, 0, 3, 1/2⟩).config.beta = 0 ∧
    ((MARWILTorchPolicy.init ⟨0, 5, 0, 3, 1/2⟩).moving_average_sqd_adv_norm = none ∧
     ∃ p1 out,
       (MARWILTorchPolicy.init ⟨0, 5, 0, 3, 1/2⟩).loss ⟨[-1, -2], [1, 2], [0, 0], [[0], [0]]⟩ =
         some (p1, out) ∧
       p1.moving_average_sqd_adv_norm =
         (MARWILTorchPolicy.init ⟨0, 5, 0, 3, 1/2⟩).moving_average_sqd_adv_norm ∧
       out.v_loss = 0 ∧ out.total_loss = out.p_loss) :=
  ⟨by norm_num, by norm_num [MARWILTorchPolicy.init],
   C3_pure_bc_mode _ _ _ (by norm_num) (by norm_num [MARWILTorchPolicy.init])⟩

/-- C4: with `beta != 0`, the value loss is exactly
`0.5 * mean((advantages - state_values)^2)`. -/
theorem C4_value_loss_half_msq (p : MARWILTorchPolicy) (I : LossInputs)
    (old : ℝ) (hb : p.config.beta ≠ 0)
    (hm : p.moving_average_sqd_adv_norm = some old) :
    ∃ p1 out, p.loss I = some (p1, out) ∧
      out.v_loss = 0.5 *
        mean ((List.zipWith (fun c v => c - v) I.advantages I.state_values).map
          fun x => x ^ 2) := by
  simp only [MARWILTorchPolicy.loss, hm, if_pos hb]
  exact ⟨_, _, rfl, rfl⟩

theorem C4_witness :
    (MARWILTorchPolicy.init ⟨1, 1, 0, 1, 1/10⟩).config.beta ≠ 0 ∧
    (MARWILTorchPolicy.init ⟨1, 1, 0, 1, 1/10⟩).moving_average_sqd_adv_norm = some 1 ∧
    ∃ p1 out,
      (MARWILTorchPolicy.init ⟨1, 1, 0, 1, 1/10⟩).loss ⟨[0, 0], [2, 4], [1, 1], [[0], [0]]⟩ =
        some (p1, out) ∧
      out.v_loss = 0.5 *
        mean ((List.zipWith (fun c v => c - v) [(2 : ℝ), 4] [(1 : ℝ), 1]).map
          fun x => x ^ 2) :=
  ⟨by norm_num [MARWILTorchPolicy.init], by norm_num [MARWILTorchPolicy.init],
   C4_value_loss_half_msq _ _ 1 (by norm_num [MARWILTorchPolicy.init])
     (by norm_num [MARWILTorchPolicy.init])⟩

/-- C5: on every successful `loss` call,
`p_loss = -mean(exp_advs * (logprobs + bc_logstd_coeff * logstds))` with
`logstds` the per-transition mean over action dimensions of `log_std`
when `bc_logstd_coeff > 0` and the all-zero tensor otherwise, and
`total_loss = p_loss + vf_coeff * v_loss`. -/
theorem C5_policy_and_total_loss (p : MARWILTorchPolicy) (I : LossInputs) :
    (p.loss I).map (fun r => (r.2.p_loss, r.2.total_loss)) =
      (p.loss I).map (fun r =>
        (-mean (List.zipWith (fun e t => e * t) r.2.exp_advs
            (List.zipWith (fun l s => l + p.config.bc_logstd_coeff * s) I.logprobs
              (if p.config.bc_logstd_coeff > 0 then I.log_std.map mean
               else List.replicate I.logprobs.length 0))),
         r.2.p_loss + p.config.vf_coeff * r.2.v_loss)) := by
  unfold MARWILTorchPolicy.loss
  rcases hm : p.moving_average_sqd_adv_norm with _ | old <;>
    by_cases hb : p.config.beta ≠ 0 <;>
      simp [hb, hm]

/-- C6: for a fixed moving-average value, `exp_advs` entries are strictly
increasing in the advantage residual whenever `beta != 0` and `beta ≥ 0`. -/
theorem C6_exp_advs_strict_mono (beta mavg a b : ℝ)
    (hb : beta ≠ 0) (hbnn : 0 ≤ beta) (hab : b < a) :
    exp_adv beta b mavg < exp_adv beta a mavg := by
  have hbpos : 0 < beta := lt_of_le_of_ne hbnn (Ne.symm hb)
  have heps : (0 : ℝ) < 1e-8 := by norm_num
  have hd : 0 < (1e-8 : ℝ) + Real.sqrt mavg := by
    have := Real.sqrt_nonneg mavg
    linarith
  unfold exp_adv
  apply Real.exp_lt_exp.mpr
  apply mul_lt_mul_of_pos_left _ hbpos
  gcongr

theorem C6_witness :
    (1 : ℝ) ≠ 0 ∧ (0 : ℝ) ≤ 1 ∧ (0 : ℝ) < 1 ∧ exp_adv 1 0 0 < exp_adv 1 1 0 :=
  ⟨by norm_num, by norm_num, by norm_num,
   C6_exp_advs_strict_mono 1 0 1 0 (by norm_num) (by norm_num) (by norm_num)⟩

theorem mean_sq_nonneg (l : List ℝ) : 0 ≤ mean (l.map fun x => x ^ 2) := by
  unfold mean
  apply div_nonneg
  · apply List.sum_nonneg
    intro x hx
    simp only [List.mem_map] at hx
    obtain ⟨y, _, rfl⟩ := hx
    positivity
  · positivity

theorem loss_step_movavg_nonneg (p p1 : MARWILTorchPolicy) (out : LossOut)
    (I : LossInputs)
    (hr1 : 0 < p.config.moving_average_sqd_adv_norm_update_rate)
    (hr2 : p.config.moving_average_sqd_adv_norm_update_rate ≤ 1)
    (hinv : ∀ v, p.moving_average_sqd_adv_norm = some v → 0 ≤ v)
    (h : p.loss I = some (p1, out)) :
    (∀ v, p1.moving_average_sqd_adv_norm = some v → 0 ≤ v) ∧ p1.config = p.config := by
  unfold MARWILTorchPolicy.loss at h
  by_cases hb : p.config.beta ≠ 0
  · rcases hm : p.moving_average_sqd_adv_norm with _ | old
    · simp [hb, hm] at h
    · simp only [hm, if_pos hb, Option.some.injEq, Prod.mk.injEq] at h
      obtain ⟨h1, _⟩ := h
      subst h1
      refine ⟨?_, rfl⟩
      intro v hv
      simp only [Option.some.injEq] at hv
      subst hv
      have hold : 0 ≤ old := hinv old hm
      have hmsq : 0 ≤ mean (((List.zipWith (fun c v => c - v) I.advantages
          I.state_values)).map fun x => x ^ 2) := mean_sq_nonneg _
      set r := p.config.moving_average_sqd_adv_norm_update_rate with hr
      set m := mean (((List.zipWith (fun c v => c - v) I.advantages
        I.state_values)).map fun x => x ^ 2) with hmdef
      have key : old + r * (m - old) = (1 - r) * old + r * m := by ring
      rw [key]
      have g1 : 0 ≤ (1 - r) * old := mul_nonneg (by linarith) hold
      have g2 : 0 ≤ r * m := mul_nonneg hr1.le hmsq
      linarith
  · simp only [if_neg hb, Option.some.injEq, Prod.mk.injEq] at h
    obtain ⟨h1, _⟩ := h
    subst h1
    exact ⟨hinv, rfl⟩

theorem runLosses_movavg_nonneg (Is : List LossInputs) :
    ∀ p p1 : MARWILTorchPolicy,
      0 < p.config.moving_average_sqd_adv_norm_update_rate →
      p.config.moving_average_sqd_adv_norm_update_rate ≤ 1 →
      (∀ v, p.moving_average_sqd_adv_norm = some v → 0 ≤ v) →
      runLosses p Is = some p1 →
      ∀ v, p1.moving_average_sqd_adv_norm = some v → 0 ≤ v := by
  induction Is with
  | nil =>
    intro p p1 _ _ hinv hrun
    simp only [runLosses, Option.some.injEq] at hrun
    subst hrun
    exact hinv
  | cons I rest ih =>
    intro p p1 hr1 hr2 hinv hrun
    unfold runLosses at hrun
    rcases hl : p.loss I with _ | r
    · rw [hl] at hrun; cases hrun
    · obtain ⟨q, o⟩ := r
      rw [hl] at hrun
      obtain ⟨hinv1, hcfg⟩ := loss_step_movavg_nonneg p q o I hr1 hr2 hinv hl
      exact ih q p1 (by rw [hcfg]; exact hr1) (by rw [hcfg]; exact hr2) hinv1 hrun

/-- C7: starting from a nonnegative configured value and an update rate in
(0, 1], the moving-average state stays nonnegative across every sequence
of loss invocations. -/
theorem C7_moving_average_nonneg (cfg : MARWILConfig) (Is : List LossInputs)
    (p1 : MARWILTorchPolicy)
    (h0 : 0 ≤ cfg.moving_average_sqd_adv_norm_start)
    (hr1 : 0 < cfg.moving_average_sqd_adv_norm_update_rate)
    (hr2 : cfg.moving_average_sqd_adv_norm_update_rate ≤ 1)
    (hrun : runLosses (MARWILTorchPolicy.init cfg) Is = some p1) :
    ∀ v, p1.moving_average_sqd_adv_norm = some v → 0 ≤ v := by
  apply runLosses_movavg_nonneg Is (MARWILTorchPolicy.init cfg) p1 hr1 hr2 _ hrun
  intro v hv
  unfold MARWILTorchPolicy.init at hv
  by_cases hb : cfg.beta ≠ 0
  · simp only [if_pos hb, Option.some.injEq] at hv
    subst hv
    exact h0
  · simp [if_neg hb] at hv

theorem C7_witness :
    (0 : ℝ) ≤ 1 ∧ (0 : ℝ) < 1/2 ∧ (1/2 : ℝ) ≤ 1 ∧
    runLosses (MARWILTorchPolicy.init ⟨1, 1, 0, 1, 1/2⟩) [] =
      some (MARWILTorchPolicy.init ⟨1, 1, 0, 1, 1/2⟩) ∧
    ∀ v, (MARWILTorchPolicy.init ⟨1, 1, 0, 1, 1/2⟩).moving_average_sqd_adv_norm =
      some v → 0 ≤ v :=
  ⟨by norm_num, by norm_num, by norm_num, by simp [runLosses],
   C7_moving_average_nonneg ⟨1, 1, 0, 1, 1/2⟩ []
     (MARWILTorchPolicy.init ⟨1, 1, 0, 1, 1/2⟩) (by norm_num) (by norm_num)
     (by norm_num) (by simp [runLosses])⟩

/-- C8: after a `loss` call, `stats_fn` returns exactly the keys
`policy_loss`, `total_loss` when `beta == 0`, and exactly those plus
`moving_average_sqd_adv_norm`, `vf_explained_var`, `vf_loss` when
`beta != 0`, each value being the snapshot stored by that call. -/
theorem C8_stats_keys (p p1 : MARWILTorchPolicy) (out : LossOut) (I : LossInputs)
    (h : p.loss I = some (p1, out)) :
    (p.config.beta = 0 →
      p1.stats_fn = some [("policy_loss", out.p_loss), ("total_loss", out.total_loss)]) ∧
    (p.config.beta ≠ 0 → ∃ m ev,
      p1.moving_average_sqd_adv_norm = some m ∧ p1.explained_variance = some ev ∧
      p1.stats_fn = some [("policy_loss", out.p_loss), ("total_loss", out.total_loss),
        ("moving_average_sqd_adv_norm", m), ("vf_explained_var", ev),
        ("vf_loss", out.v_loss)]) := by
  unfold MARWILTorchPolicy.loss at h
  by_cases hb : p.config.beta ≠ 0
  · rcases hm : p.moving_average_sqd_adv_norm with _ | old
    · simp [hb, hm] at h
    · simp only [hm, if_pos hb, Option.some.injEq, Prod.mk.injEq] at h
      obtain ⟨h1, h2⟩ := h
      subst h1
      subst h2
      constructor
      · intro h0; exact absurd h0 hb
      · intro _
        exact ⟨_, _, rfl, rfl, by simp [MARWILTorchPolicy.stats_fn, hb]⟩
  · simp only [if_neg hb, Option.some.injEq, Prod.mk.injEq] at h
    obtain ⟨h1, h2⟩ := h
    subst h1
    subst h2
    constructor
    · intro _
      simp [MARWILTorchPolicy.stats_fn, hb]
    · intro h0; exact absurd h0 hb

theorem C8_witness :
    ((MARWILTorchPolicy.init ⟨0, 1, 0, 0, 0⟩).loss ⟨[2], [0], [0], [[0]]⟩ =
      some (⟨⟨0, 1, 0, 0, 0⟩, none, none, some (-2), some 0, some (-2)⟩,
            ⟨[1], -2, 0, -2⟩)) ∧
    (((MARWILTorchPolicy.init ⟨0, 1, 0, 0, 0⟩).config.beta = 0) →
      MARWILTorchPolicy.stats_fn
          ⟨⟨0, 1, 0, 0, 0⟩, none, none, some (-2), some 0, some (-2)⟩ =
        some [("policy_loss", -2), ("total_loss", -2)]) ∧
    (((MARWILTorchPolicy.init ⟨0, 1, 0, 0, 0⟩).config.beta ≠ 0) → ∃ m ev,
      (⟨⟨0, 1, 0, 0, 0⟩, none, none, some (-2), some 0, some (-2)⟩ :
        MARWILTorchPolicy).moving_average_sqd_adv_norm = some m ∧
      (⟨⟨0, 1, 0, 0, 0⟩, none, none, some (-2), some 0, some (-2)⟩ :
        MARWILTorchPolicy).explained_variance = some ev ∧
      MARWILTorchPolicy.stats_fn
          ⟨⟨0, 1, 0, 0, 0⟩, none, none, some (-2), some 0, some (-2)⟩ =
        some [("policy_loss", -2), ("total_loss", -2),
          ("moving_average_sqd_adv_norm", m), ("vf_explained_var", ev),
          ("vf_loss", 0)]) := by
  have h : (MARWILTorchPolicy.init ⟨0, 1, 0, 0, 0⟩).loss ⟨[2], [0], [0], [[0]]⟩ =
      some (⟨⟨0, 1, 0, 0, 0⟩, none, none, some (-2), some 0, some (-2)⟩,
            ⟨[1], -2, 0, -2⟩) := by
    norm_num [MARWILTorchPolicy.loss, MARWILTorchPolicy.init, mean]
  have h2 := C8_stats_keys _ _ _ _ h
  exact ⟨h, h2.1, h2.2⟩

/-- C2 counterexample: running `loss` with `beta = 1`, advantages `[1]`,
state values `[0]`, start `1`, rate `1/2` gives moving average `1` and
`exp_advs = [exp_adv 1 1 1]`, but `exp_adv 1 1 1` (whose denominator is
`1e-8 + sqrt(1)`) differs from the claimed
`exp(beta * adv / sqrt(1e-8 + 1))`: the epsilon is added outside the
square root, not inside it. -/
theorem C2_counterexample :
    (((MARWILTorchPolicy.init ⟨1, 1, 0, 1, 1/2⟩).loss ⟨[0], [1], [0], [[0]]⟩).map
      fun r => r.2.exp_advs) = some [exp_adv 1 1 1] ∧
    exp_adv 1 1 1 ≠ Real.exp (1 * 1 / Real.sqrt (1e-8 + 1)) := by
  constructor
  · norm_num [MARWILTorchPolicy.loss, MARWILTorchPolicy.init, mean]
  · unfold exp_adv
    rw [Real.sqrt_one]
    intro h
    have h2 := Real.exp_eq_exp.mp h
    rw [one_mul, one_mul] at h2
    have hlt : Real.sqrt (1e-8 + 1) < 1e-8 + 1 := (Real.sqrt_lt' (by norm_num)).mpr (by norm_num)
    have hpos : 0 < Real.sqrt (1e-8 + 1) := Real.sqrt_pos.mpr (by norm_num)
    have hcontra : 1 / (1e-8 + 1 : ℝ) < 1 / Real.sqrt (1e-8 + 1) :=
      one_div_lt_one_div_of_lt hpos hlt
    rw [h2] at hcontra
    exact lt_irrefl _ hcontra

/-- C2 (amended): with `beta != 0`, each entry of `exp_advs` equals
`exp(beta * advantage[i] / (1e-8 + sqrt(moving_avg)))` — the additive
epsilon is applied outside the square root, to the square root of the
updated moving average — and the tensor is excluded from gradient flow:
in the forward-mode gradient model the detached entry has derivative `0`
while keeping the same value. -/
theorem C2_exp_advs_epsilon_outside_sqrt (p : MARWILTorchPolicy) (I : LossInputs)
    (old : ℝ) (hb : p.config.beta ≠ 0)
    (hm : p.moving_average_sqd_adv_norm = some old) :
    (∃ p1 out newavg, p.loss I = some (p1, out) ∧
      p1.moving_average_sqd_adv_norm = some newavg ∧
      out.exp_advs =
        (List.zipWith (fun c v => c - v) I.advantages I.state_values).map fun a =>
          Real.exp (p.config.beta * (a / (1e-8 + Real.sqrt newavg)))) ∧
    (∀ (b m : ℝ) (a : Dual), (exp_adv_dual b a m).der = 0 ∧
      (exp_adv_dual b a m).val = exp_adv b a.val m) := by
  constructor
  · simp only [MARWILTorchPolicy.loss, hm, if_pos hb]
    exact ⟨_, _, _, rfl, rfl, rfl⟩
  · intro b m a
    exact ⟨rfl, rfl⟩

theorem C2_witness :
    (MARWILTorchPolicy.init ⟨1, 1, 0, 2, 1/2⟩).config.beta ≠ 0 ∧
    (MARWILTorchPolicy.init ⟨1, 1, 0, 2, 1/2⟩).moving_average_sqd_adv_norm = some 2 ∧
    ((∃ p1 out newavg,
      (MARWILTorchPolicy.init ⟨1, 1, 0, 2, 1/2⟩).loss ⟨[0], [1], [0], [[0]]⟩ =
        some (p1, out) ∧
      p1.moving_average_sqd_adv_norm = some newavg ∧
      out.exp_advs =
        (List.zipWith (fun c v => c - v) [(1 : ℝ)] [(0 : ℝ)]).map fun a =>
          Real.exp ((MARWILTorchPolicy.init ⟨1, 1, 0, 2, 1/2⟩).config.beta *
            (a / (1e-8 + Real.sqrt newavg)))) ∧
    (∀ (b m : ℝ) (a : Dual), (exp_adv_dual b a m).der = 0 ∧
      (exp_adv_dual b a m).val = exp_adv b a.val m)) :=
  ⟨by norm_num [MARWILTorchPolicy.init], by norm_num [MARWILTorchPolicy.init],
   C2_exp_advs_epsilon_outside_sqrt _ _ 2 (by norm_num [MARWILTorchPolicy.init])
     (by norm_num [MARWILTorchPolicy.init])⟩

/-- C9 counterexample: with `beta = 1`, start `1`, rate `1/2`, advantages
`[1]`, state values `[0]`, the batch's mean squared advantage equals the
moving average, so the state is a fixed point of the update and the
second of two identical `loss` calls returns exactly the same result as
the first — the claim's "different result for every such input" fails. -/
theorem C9_counterexample :
    (((MARWILTorchPolicy.init ⟨1, 1, 0, 1, 1/2⟩).loss ⟨[0], [1], [0], [[0]]⟩).bind
      fun r => r.1.loss ⟨[0], [1], [0], [[0]]⟩) =
      (MARWILTorchPolicy.init ⟨1, 1, 0, 1, 1/2⟩).loss ⟨[0], [1], [0], [[0]]⟩ ∧
    ((MARWILTorchPolicy.init ⟨1, 1, 0, 1, 1/2⟩).loss ⟨[0], [1], [0], [[0]]⟩).isSome =
      true ∧
    (MARWILTorchPolicy.init ⟨1, 1, 0, 1, 1/2⟩).config.beta ≠ 0 := by
  refine ⟨?_, ?_, by norm_num [MARWILTorchPolicy.init]⟩ <;>
    norm_num [MARWILTorchPolicy.loss, MARWILTorchPolicy.init, mean,
      explainedVariance, variance]

/-- C9 (amended): with `beta != 0`, each `loss` call mutates the
moving-average state, and the second of two calls with identical inputs
yields a different result than the first whenever the update rate lies in
(0, 1) and the batch's mean squared advantage differs from the pre-call
moving average; at a fixed point (mean squared advantage equal to the
current moving average) the two calls return identical results. -/
theorem C9_second_call_differs (p : MARWILTorchPolicy) (I : LossInputs) (old : ℝ)
    (hb : p.config.beta ≠ 0)
    (hm : p.moving_average_sqd_adv_norm = some old)
    (hr0 : 0 < p.config.moving_average_sqd_adv_norm_update_rate)
    (hr1 : p.config.moving_average_sqd_adv_norm_update_rate < 1)
    (hne : mean ((List.zipWith (fun c v => c - v) I.advantages I.state_values).map
      fun x => x ^ 2) ≠ old) :
    ((p.loss I).bind fun r => r.1.loss I) ≠ p.loss I := by
  simp only [MARWILTorchPolicy.loss, hm, if_pos hb, Option.some_bind]
  intro h
  have hmv := congrArg (Option.map fun r :
      MARWILTorchPolicy × LossOut => r.1.moving_average_sqd_adv_norm) h
  simp only [Option.map_some', Option.map_some, Option.some.injEq] at hmv
  set r := p.config.moving_average_sqd_adv_norm_update_rate with hrdef
  set m := mean ((List.zipWith (fun c v => c - v) I.advantages I.state_values).map
    fun x => x ^ 2) with hmdef
  have h1 : r * (m - (old + r * (m - old))) = 0 := by linarith
  rcases mul_eq_zero.mp h1 with h2 | h2
  · exact absurd h2 (ne_of_gt hr0)
  · have h3 : (1 - r) * (m - old) = 0 := by ring_nf at h2 ⊢; linarith
    rcases mul_eq_zero.mp h3 with h4 | h4
    · have h5 : r = 1 := by linarith
      exact absurd h5 (ne_of_lt hr1)
    · exact hne (by linarith)

theorem C9_witness :
    (MARWILTorchPolicy.init ⟨1, 1, 0, 0, 1/2⟩).config.beta ≠ 0 ∧
    (MARWILTorchPolicy.init ⟨1, 1, 0, 0, 1/2⟩).moving_average_sqd_adv_norm = some 0 ∧
    0 < (MARWILTorchPolicy.init
      ⟨1, 1, 0, 0, 1/2⟩).config.moving_average_sqd_adv_norm_update_rate ∧
    (MARWILTorchPolicy.init
      ⟨1, 1, 0, 0, 1/2⟩).config.moving_average_sqd_adv_norm_update_rate < 1 ∧
    mean ((List.zipWith (fun c v => c - v) [(1 : ℝ)] [(0 : ℝ)]).map
      fun x => x ^ 2) ≠ 0 ∧
    (((MARWILTorchPolicy.init ⟨1, 1, 0, 0, 1/2⟩).loss ⟨[0], [1], [0], [[0]]⟩).bind
      fun r => r.1.loss ⟨[0], [1], [0], [[0]]⟩) ≠
      (MARWILTorchPolicy.init ⟨1, 1, 0, 0, 1/2⟩).loss ⟨[0], [1], [0], [[0]]⟩ :=
  ⟨by norm_num [MARWILTorchPolicy.init], by norm_num [MARWILTorchPolicy.init],
   by norm_num [MARWILTorchPolicy.init], by norm_num [MARWILTorchPolicy.init],
   by norm_num [mean],
   C9_second_call_differs _ _ 0 (by norm_num [MARWILTorchPolicy.init])
     (by norm_num [MARWILTorchPolicy.init]) (by norm_num [MARWILTorchPolicy.init])
     (by norm_num [MARWILTorchPolicy.init]) (by norm_num [mean])⟩

theorem zipWith_left_replicate (z : ℝ) (lp : List ℝ) :
    List.zipWith (fun l _ => l) lp (List.replicate lp.length z) = lp := by
  induction lp with
  | nil => rfl
  | cons x xs ih =>
    simp only [List.length_cons, List.replicate_succ, List.zipWith_cons_cons, ih]

theorem zipWith_add_mul_zero (c : ℝ) (lp : List ℝ) :
    List.zipWith (fun l s => l + c * s) lp (List.replicate lp.length 0) = lp := by
  induction lp with
  | nil => rfl
  | cons x xs ih =>
    simp only [List.length_cons, List.replicate_succ, List.zipWith_cons_cons, ih,
      mul_zero, add_zero]

/-- C10: when `bc_logstd_coeff ≤ 0` (including strictly negative values),
the loss computation never reads `log_std` — the result is independent of
it — and `p_loss` and `total_loss` coincide exactly with those computed
under `bc_logstd_coeff == 0`. -/
theorem C10_logstd_coeff_nonpos (p : MARWILTorchPolicy) (I : LossInputs)
    (ls ls2 : List (List ℝ)) (hc : p.config.bc_logstd_coeff ≤ 0) :
    p.loss { I with log_std := ls } = p.loss { I with log_std := ls2 } ∧
    (p.loss I).map (fun r : MARWILTorchPolicy × LossOut =>
        (r.2.p_loss, r.2.total_loss)) =
      (({ p with config := { p.config with bc_logstd_coeff := 0 } }).loss I).map
        (fun r : MARWILTorchPolicy × LossOut => (r.2.p_loss, r.2.total_loss)) := by
  have hcc : ¬ p.config.bc_logstd_coeff > 0 := not_lt.mpr hc
  constructor
  · simp only [MARWILTorchPolicy.loss, if_neg hcc]
  · unfold MARWILTorchPolicy.loss
    rcases hm : p.moving_average_sqd_adv_norm with _ | old <;>
      by_cases hb : p.config.beta ≠ 0 <;>
        simp [hb, hm, hcc, zipWith_add_mul_zero, zipWith_left_replicate]

theorem C10_witness :
    (MARWILTorchPolicy.init ⟨0, 1, -1, 0, 0⟩).config.bc_logstd_coeff ≤ 0 ∧
    ((MARWILTorchPolicy.init ⟨0, 1, -1, 0, 0⟩).loss
        { logprobs := [2], advantages := [0], state_values := [0], log_std := [[5]] } =
      (MARWILTorchPolicy.init ⟨0, 1, -1, 0, 0⟩).loss
        { logprobs := [2], advantages := [0], state_values := [0], log_std := [[7]] } ∧
    ((MARWILTorchPolicy.init ⟨0, 1, -1, 0, 0⟩).loss
        ⟨[2], [0], [0], [[5]]⟩).map (fun r : MARWILTorchPolicy × LossOut =>
          (r.2.p_loss, r.2.total_loss)) =
      ((({ MARWILTorchPolicy.init ⟨0, 1, -1, 0, 0⟩ with
          config := { (MARWILTorchPolicy.init ⟨0, 1, -1, 0, 0⟩).config with
            bc_logstd_coeff := 0 } }).loss ⟨[2], [0], [0], [[5]]⟩).map
        (fun r : MARWILTorchPolicy × LossOut => (r.2.p_loss, r.2.total_loss)))) :=
  ⟨by norm_num [MARWILTorchPolicy.init],
   C10_logstd_coeff_nonpos (MARWILTorchPolicy.init ⟨0, 1, -1, 0, 0⟩)
     ⟨[2], [0], [0], [[5]]⟩ [[5]] [[7]] (by norm_num [MARWILTorchPolicy.init])⟩
